import Mathlib

/-!
Verification development for the ProTrack appointment tracker.

The definitions below are a shallow embedding of the application's core
logic, translated from the TypeScript source:

* `src/types.ts` — the data model (`Subject`, `Appointment`,
  `ChangeLogEntry`, the status and change-type enumerations);
* the `App` component — `addChangeLog`, `handleSubjectChange`,
  `updateStatus`, `updateAppointment`, `addAppointment`, `handleBulkAdd`
  and the bootstrap auto-miss pass;
* `AppointmentCalendar` — `handleStatusUpdate`/`saveReason` (the Missed
  path), `handleCompletionSubmit` and `handleRescheduleSubmit`;
* `SubjectManager` — the DELETE branch of `handleSubmit`;
* `ImportExport` — `handleCommit` over the parsed preview rows.

Timestamps are modelled at minute granularity as a day index plus a
minute-of-day, which faithfully captures every date computation the code
performs (`startOfDay`, `subDays`, `isBefore`, `isAfter`, combining a
`yyyy-MM-dd` form value with an `HH:mm` time, and truncating an instant
to its `yyyy-MM-dd` day for the `min`/`max` attributes of date inputs).
-/

namespace ProTrack

/-- Minute-granularity timestamp: a day index together with the minute of
that day. `⟨d, m⟩` stands for the instant `m` minutes after local
midnight of day `d`. Ordering is lexicographic, exactly as JavaScript
`Date` comparison orders instants. -/
structure Instant where
  day : Int
  min : Int
deriving DecidableEq

/-- date-fns `isBefore` / JavaScript `<` on instants (strict). -/
def isBefore (a b : Instant) : Bool :=
  decide (a.day < b.day ∨ (a.day = b.day ∧ a.min < b.min))

/-- date-fns `isAfter` / JavaScript `>` on instants (strict). -/
def isAfter (a b : Instant) : Bool := isBefore b a

/-- date-fns `startOfDay`: truncate an instant to local midnight. -/
def startOfDay (t : Instant) : Instant := ⟨t.day, 0⟩

/-- date-fns `subDays`: go back `k` calendar days keeping the time of day. -/
def subDays (t : Instant) (k : Int) : Instant := ⟨t.day - k, t.min⟩

/-- `parseISO` of a `yyyy-MM-dd` form value: local midnight of that day. -/
def dayStart (d : Int) : Instant := ⟨d, 0⟩

/-- Rendering of an instant into the note strings the code builds with
`toISOString`/`toLocaleDateString`; an injective stand-in for the
textual date format. -/
def instantString (t : Instant) : String :=
  toString t.day ++ "T" ++ toString t.min

/-- `src/types.ts` `AppointmentStatus`. -/
inductive AppointmentStatus where
  | scheduled
  | completed
  | missed
  | cancelled
deriving DecidableEq

/-- The string value backing each `AppointmentStatus` enum member. -/
def statusLabel : AppointmentStatus → String
  | .scheduled => "Scheduled"
  | .completed => "Completed"
  | .missed => "Missed"
  | .cancelled => "Cancelled"

/-- `src/types.ts` `ChangeType`. -/
inductive ChangeType where
  | create
  | update
  | delete
deriving DecidableEq

/-- `src/types.ts` `Subject`. Optional fields are `Option String`; a JS
property holding the empty string is `some ""`, an absent/undefined
property is `none` (the distinction `JSON.stringify` also makes). -/
structure Subject where
  id : String
  name : String
  email : Option String := none
  phone : Option String := none
  altPhone : Option String := none
  insertionDate : Option String := none
  notes : Option String := none
deriving DecidableEq

/-- `src/types.ts` `Appointment`. -/
structure Appointment where
  id : String
  subjectId : String
  date : Instant
  status : AppointmentStatus
  followUpReason : Option String := none
  notes : Option String := none
deriving DecidableEq

/-- `src/types.ts` `ChangeLogEntry`. -/
structure ChangeLogEntry where
  id : String
  timestamp : Instant
  subjectId : String
  subjectName : String
  changeType : ChangeType
  details : String
  comment : String
deriving DecidableEq

/-- The `App` component's persistent state: the `subjects`,
`appointments` and `changeLogs` React state arrays. -/
structure AppState where
  subjects : List Subject
  appointments : List Appointment
  changeLogs : List ChangeLogEntry
deriving DecidableEq

/-- JavaScript `x || y` for an optional string against an optional
fallback: an absent or empty-string value is falsy. Used for
`reason || a.followUpReason` in `updateStatus`. -/
def orReason : Option String → Option String → Option String
  | none, old => old
  | some s, old => if s = "" then old else some s

/-- JavaScript `s || o` where `s` is a plain string and `o` an optional
field: empty `s` is falsy. Used by the bulk-import merge. -/
def jsOrOpt (s : String) (o : Option String) : Option String :=
  if s = "" then o else some s

/-- JavaScript `s || t` on plain strings. -/
def jsOrStr (s t : String) : String :=
  if s = "" then t else s

/-- Model of JavaScript `String.prototype.trim`: strip whitespace from
both ends. Defined over the character list so it evaluates inside the
kernel. -/
def isWsChar (c : Char) : Bool :=
  c = ' ' || c = '\t' || c = '\n' || c = '\r'

/-- See `isWsChar`; models `exitOtherReason.trim()`. -/
def trimString (s : String) : String :=
  String.mk (((s.data.dropWhile isWsChar).reverse.dropWhile isWsChar).reverse)

/-- Deterministic stand-in for the fresh ids handed to new change-log
entries; only distinctness from past entries could ever matter, and no
claim depends on the value. -/
def logId (n : Nat) : String := "log-" ++ toString n

/-- `App.addChangeLog`: append one entry carrying the current timestamp,
the subject id, a name snapshot, the change type, the details string and
the comment. -/
def addChangeLog (now : Instant) (ctype : ChangeType) (sub : Subject)
    (details comment : String) (st : AppState) : AppState :=
  { st with changeLogs := st.changeLogs ++
      [{ id := logId st.changeLogs.length, timestamp := now,
         subjectId := sub.id, subjectName := sub.name,
         changeType := ctype, details := details, comment := comment }] }

/-- `App.handleSubjectChange`: CREATE is blocked on a duplicate id;
UPDATE is a no-op when the id is absent; DELETE filters the subject out
of the directory. Each applied branch appends exactly one log entry. -/
def handleSubjectChange (now : Instant) (ctype : ChangeType)
    (subjectData : Subject) (comment : String) (st : AppState) : AppState :=
  match ctype with
  | .create =>
      if st.subjects.any (fun s => s.id == subjectData.id) then st
      else addChangeLog now .create subjectData "Created new subject entry" comment
        { st with subjects := st.subjects ++ [subjectData] }
  | .update =>
      if st.subjects.any (fun s => s.id == subjectData.id) then
        addChangeLog now .update subjectData "Updated subject details" comment
          { st with subjects := st.subjects.map (fun s =>
                      if s.id == subjectData.id then subjectData else s) }
      else st
  | .delete =>
      addChangeLog now .delete subjectData "Exited Subject from study" comment
        { st with subjects := st.subjects.filter (fun s => s.id != subjectData.id) }

/-- `App.updateStatus`: rewrite the matching appointment's status, keeping
the old `followUpReason` when the supplied reason is absent or empty
(`reason || a.followUpReason`); then, if the status actually changed and
the appointment's subject is still in the directory, append one log
entry describing the transition. -/
def updateStatus (now : Instant) (id : String) (status : AppointmentStatus)
    (reason : Option String) (st : AppState) : AppState :=
  let oldApp := st.appointments.find? (fun a => a.id == id)
  let st1 : AppState :=
    { st with appointments := st.appointments.map (fun a =>
                if a.id == id then
                  { a with status := status,
                           followUpReason := orReason reason a.followUpReason }
                else a) }
  match oldApp with
  | none => st1
  | some old =>
      if old.status = status then st1
      else
        match st.subjects.find? (fun s => s.id == old.subjectId) with
        | none => st1
        | some sub =>
            addChangeLog now .update sub
              ("Status: " ++ statusLabel old.status ++ " -> " ++ statusLabel status)
              ("Manual change. " ++ reason.getD "") st1

/-- `App.updateAppointment`: replace the appointment with the same id. -/
def updateAppointment (updated : Appointment) (st : AppState) : AppState :=
  { st with appointments := st.appointments.map (fun a =>
              if a.id == updated.id then updated else a) }

/-- `App.addAppointment`. -/
def addAppointment (appt : Appointment) (st : AppState) : AppState :=
  { st with appointments := st.appointments ++ [appt] }

/-- The bootstrap auto-miss mapping applied to one appointment inside
`App`'s initial `useEffect`: a `Scheduled` appointment dated strictly
before "now" becomes `Missed` with the auto-detected reason and a system
note appended; everything else is returned as is. -/
def autoMissEntry (now : Instant) (app : Appointment) : Appointment :=
  if isBefore app.date now ∧ app.status = .scheduled then
    { app with status := .missed,
               followUpReason := some "Auto-detected: Past date",
               notes := some ((app.notes.getD "") ++ " [System: Marked as Missed]") }
  else app

/-- The bootstrap auto-miss pass over the whole appointment store. -/
def autoMissPass (now : Instant) (apps : List Appointment) : List Appointment :=
  apps.map (autoMissEntry now)

/-- `AppointmentCalendar.handleStatusUpdate` restricted to the Missed
path, composed with `saveReason` (the commit of the reason buffer): a
future-dated appointment is rejected with an alert and no callback ever
fires; otherwise the reason editor opens and saving it invokes
`onUpdateStatus(id, Missed, reason)`. The boolean reports whether the
transition was applied. -/
def handleMissedUpdate (now : Instant) (id : String) (reason : String)
    (st : AppState) : AppState × Bool :=
  match st.appointments.find? (fun a => a.id == id) with
  | none => (st, false)
  | some app =>
      if isAfter app.date now then (st, false)
      else (updateStatus now id .missed (some reason) st, true)

/-- The follow-up choice in the completion modal (`postVisitAction`). -/
inductive PostVisitAction where
  | nextAppt
  | exitStudy
deriving DecidableEq

/-- The closed set of exit reasons offered by both exit forms. -/
inductive ExitReason where
  | removal
  | expulsion
  | completedStudy
  | other
deriving DecidableEq

/-- The option value backing each exit reason in the `<select>`. -/
def exitReasonLabel : ExitReason → String
  | .removal => "REMOVAL"
  | .expulsion => "EXPULSION"
  | .completedStudy => "COMPLETED"
  | .other => "OTHER"

/-- The state of the completion modal's form when it is submitted:
`completionDate`, `exitDate` and `nextApptDate` are `yyyy-MM-dd` values
(day indices, `none` for an empty date field), `nextApptTime` an `HH:mm`
value in minutes. -/
structure CompletionInput where
  completionDate : Int
  isApproximate : Bool
  postVisitAction : Option PostVisitAction
  nextApptDate : Option Int
  nextApptTime : Int
  nextApptNotes : String
  exitReason : ExitReason
  exitOtherReason : String
  exitDate : Int
deriving DecidableEq

/-- Which exit point of the completion submission was reached. Everything
but `completedVisit` corresponds to an early `return` in
`handleCompletionSubmit` (or, for `blockedByForm`, to the browser never
firing the submit event). -/
inductive CompletionOutcome where
  | blockedByForm
  | rejectedWindow
  | rejectedNoAction
  | rejectedNoNextDate
  | rejectedOtherReason
  | completedVisit
deriving DecidableEq

/-- The completed version of the appointment written by
`handleCompletionSubmit` via `onUpdateAppointment`: status `Completed`,
date moved to the attended day at the original time of day,
`followUpReason` cleared, and an attendance note appended. -/
def completedVersion (completionApp : Appointment) (inp : CompletionInput) : Appointment :=
  { completionApp with
      status := .completed,
      date := ⟨inp.completionDate, completionApp.date.min⟩,
      followUpReason := none,
      notes := some ((completionApp.notes.getD "") ++ " [Attended on " ++
        toString inp.completionDate ++
        (if inp.isApproximate then " (approx)" else "") ++ "]") }

/-- The new `Scheduled` appointment created by the `NEXT_APPT` branch of
`handleCompletionSubmit`. -/
def nextApptRecord (completionApp : Appointment) (inp : CompletionInput)
    (newApptId : String) (d : Int) : Appointment :=
  { id := newApptId, subjectId := completionApp.subjectId,
    date := ⟨d, inp.nextApptTime⟩, status := .scheduled,
    followUpReason := none, notes := some inp.nextApptNotes }

/-- The exit comment built by the `EXIT` branch of
`handleCompletionSubmit` (note that it reuses the attendance
`isApproximate` flag for the approximation marker). -/
def exitStudyComment (inp : CompletionInput) : String :=
  "Exit Study: " ++
    (if inp.exitReason = .other then "OTHER: " ++ inp.exitOtherReason
     else exitReasonLabel inp.exitReason) ++
    " on " ++ toString inp.exitDate ++
    (if inp.isApproximate then " (approx)" else "")

/-- `AppointmentCalendar.handleCompletionSubmit`, transcribed statement
by statement. The correction-window check fires first; then the
follow-up choice is required; only after that is the appointment
rewritten to `Completed`, so the two later validation failures
(`rejectedNoNextDate`, `rejectedOtherReason`) leave the status change
already applied, and an `EXIT` whose subject is no longer in the
directory falls through with no side effect beyond the status change. -/
def handleCompletionSubmit (now : Instant) (completionApp : Appointment)
    (inp : CompletionInput) (newApptId : String) (st : AppState) :
    AppState × CompletionOutcome :=
  if completionApp.status = .missed ∧
      isBefore (dayStart inp.completionDate) (startOfDay (subDays now 5)) then
    (st, .rejectedWindow)
  else
    match inp.postVisitAction with
    | none => (st, .rejectedNoAction)
    | some action =>
        let st1 := updateAppointment (completedVersion completionApp inp) st
        match action with
        | .nextAppt =>
            match inp.nextApptDate with
            | none => (st1, .rejectedNoNextDate)
            | some d =>
                (addAppointment (nextApptRecord completionApp inp newApptId d) st1,
                 .completedVisit)
        | .exitStudy =>
            match st.subjects.find? (fun s => s.id == completionApp.subjectId) with
            | none => (st1, .completedVisit)
            | some sub =>
                if inp.exitReason = .other ∧ trimString inp.exitOtherReason = "" then
                  (st1, .rejectedOtherReason)
                else
                  (handleSubjectChange now .delete sub (exitStudyComment inp) st1,
                   .completedVisit)

/-- The native constraint validation of the completion form's inputs,
which must pass before the browser fires the submit event: the
`completionDate` input is `required` with `max` = today and, for a
`Missed` appointment, `min` = today minus 5 days; the `NEXT_APPT` date
input is `required` with `min` = today; the `OTHER` exit textarea is
`required` (blocking only the empty string). -/
def completionFormValid (now : Instant) (completionApp : Appointment)
    (inp : CompletionInput) : Bool :=
  decide (inp.completionDate ≤ now.day) &&
  (if completionApp.status = .missed then decide (now.day - 5 ≤ inp.completionDate)
   else true) &&
  (if inp.postVisitAction = some .nextAppt then
     match inp.nextApptDate with
     | none => false
     | some d => decide (now.day ≤ d)
   else true) &&
  (if inp.postVisitAction = some .exitStudy then
     (if inp.exitReason = .other then decide (inp.exitOtherReason ≠ "") else true)
   else true)

/-- The completion operation as exposed to the user: submitting the
completion modal's form. A submission the browser's constraint
validation blocks never reaches `handleCompletionSubmit`. -/
def completeAppointment (now : Instant) (completionApp : Appointment)
    (inp : CompletionInput) (newApptId : String) (st : AppState) :
    AppState × CompletionOutcome :=
  if completionFormValid now completionApp inp then
    handleCompletionSubmit now completionApp inp newApptId st
  else (st, .blockedByForm)

/-- `AppointmentCalendar.handleRescheduleSubmit`: a new date/time before
the start of the current day is rejected; otherwise the appointment is
rewritten in place (same id) to `Scheduled` at the new instant with a
note recording the original date. The boolean reports success. -/
def handleRescheduleSubmit (now : Instant) (rescheduleApp : Appointment)
    (newDay newTime : Int) (st : AppState) : AppState × Bool :=
  if isBefore ⟨newDay, newTime⟩ (startOfDay now) then (st, false)
  else
    (updateAppointment
      { rescheduleApp with
          date := ⟨newDay, newTime⟩,
          status := .scheduled,
          notes := some ((rescheduleApp.notes.getD "") ++
            " [System: Rescheduled from " ++ toString rescheduleApp.date.day ++ "]") } st,
     true)

/-- The DELETE branch of `SubjectManager.handleSubmit` (the exit-study
flow): reason `OTHER` with blank (trimmed-empty) freeform text is
rejected before any callback fires; otherwise `onSubjectChange('DELETE',
…)` removes the subject and logs one `Delete` entry whose comment embeds
the structured reason, the date and the approximation marker. -/
def handleSubmitDelete (now : Instant) (selectedSubject : Subject)
    (exitReason : ExitReason) (exitOtherReason : String) (exitDate : Int)
    (exitApproximate : Bool) (st : AppState) : AppState × Bool :=
  if exitReason = .other ∧ trimString exitOtherReason = "" then (st, false)
  else
    (handleSubjectChange now .delete selectedSubject
      ("Exit Study: " ++
        (if exitReason = .other then "OTHER: " ++ exitOtherReason
         else exitReasonLabel exitReason) ++
        " on " ++ toString exitDate ++
        (if exitApproximate then " (approx)" else "")) st,
     true)

/-- One tokenized bulk-entry row as handed to `App.handleBulkAdd`
(`appointmentDate` already parsed and valid; `insertionDate` kept as the
ISO string, empty when the source cell did not parse). -/
structure BulkItem where
  subjectId : String
  name : String
  phone : String
  insertionDate : String
  appointmentDate : Instant
  remark : String
deriving DecidableEq

/-- The new Subject staged by `handleBulkAdd` for a row whose id is new
to both the directory and the batch. -/
def mkBulkSubject (now : Instant) (item : BulkItem) : Subject :=
  { id := item.subjectId,
    name := jsOrStr item.name ("Subject " ++ item.subjectId),
    phone := some item.phone,
    insertionDate := some (jsOrStr item.insertionDate (instantString now)),
    notes := some "Auto-created via Bulk Multi-Column Entry" }

/-- The merge `handleBulkAdd` stages against a directory subject with
the same id: each of name/phone/insertionDate is overwritten only when
the incoming value is non-empty. -/
def mergeBulkSubject (item : BulkItem) (existing : Subject) : Subject :=
  { existing with
      name := jsOrStr item.name existing.name,
      phone := jsOrOpt item.phone existing.phone,
      insertionDate := jsOrOpt item.insertionDate existing.insertionDate }

/-- Deterministic stand-in for `crypto.randomUUID()` on bulk-created
appointments; no claim depends on the value. -/
def bulkApptId (n : Nat) : String := "bulk-" ++ toString n

/-- The one appointment `handleBulkAdd` unconditionally creates per row:
`Missed` with the fixed follow-up reason when the appointment date is in
the past, `Scheduled` otherwise. -/
def mkBulkAppt (now : Instant) (item : BulkItem) (apptId : String) : Appointment :=
  { id := apptId, subjectId := item.subjectId, date := item.appointmentDate,
    status := if isBefore item.appointmentDate now then .missed else .scheduled,
    followUpReason :=
      if isBefore item.appointmentDate now then some "Past date on bulk entry" else none,
    notes := some item.remark }

/-- Accumulator of `handleBulkAdd`'s `forEach` loop: the `newApps`,
`newSubs` and `updatedSubs` arrays. -/
structure BulkAcc where
  newApps : List Appointment
  newSubs : List Subject
  updatedSubs : List Subject
deriving DecidableEq

/-- One iteration of `handleBulkAdd`'s loop. `subjects` is the directory
snapshot captured by the closure — it does not change during the loop,
so a second row for an id staged in `newSubs` matches neither branch and
its subject fields are dropped, while rows for a directory id each merge
against the original record. -/
def bulkStep (now : Instant) (subjects : List Subject) (acc : BulkAcc)
    (item : BulkItem) : BulkAcc :=
  let existingSub := subjects.find? (fun s => s.id == item.subjectId)
  let subInNew := acc.newSubs.find? (fun s => s.id == item.subjectId)
  let acc1 : BulkAcc :=
    if existingSub.isNone ∧ subInNew.isNone then
      { acc with newSubs := acc.newSubs ++ [mkBulkSubject now item] }
    else
      match existingSub with
      | some existing =>
          let updated := mergeBulkSubject item existing
          if updated ≠ existing then
            { acc with updatedSubs := acc.updatedSubs ++ [updated] }
          else acc
      | none => acc
  { acc1 with newApps := acc1.newApps ++
      [mkBulkAppt now item (bulkApptId acc1.newApps.length)] }

/-- Replace the first subject with the given update's id, if any — the
`findIndex`-then-assign commit step for one staged update. -/
def replaceById : List Subject → Subject → List Subject
  | [], _ => []
  | s :: rest, u => if s.id == u.id then u :: rest else s :: replaceById rest u

/-- Apply all staged updates in order (later updates to the same id win,
as successive assignments do in the source). -/
def applyUpdates : List Subject → List Subject → List Subject
  | subs, [] => subs
  | subs, u :: rest => applyUpdates (replaceById subs u) rest

/-- `App.handleBulkAdd`: run the loop over all items, then commit staged
subject creations and updates in one pass with one summary log entry,
then commit all new appointments with one summary log entry. -/
def handleBulkAdd (now : Instant) (items : List BulkItem) (st : AppState) : AppState :=
  let acc := items.foldl (bulkStep now st.subjects) ⟨[], [], []⟩
  let st1 : AppState :=
    if acc.newSubs ≠ [] ∨ acc.updatedSubs ≠ [] then
      addChangeLog now .update { id := "BATCH", name := "Bulk Ops" }
        ("Added " ++ toString acc.newSubs.length ++ " new subjects and updated " ++
          toString acc.updatedSubs.length ++ ".")
        "Bulk Entry Operation"
        { st with subjects := applyUpdates (st.subjects ++ acc.newSubs) acc.updatedSubs }
    else st
  if acc.newApps ≠ [] then
    addChangeLog now .create { id := "BATCH", name := "Bulk Appts" }
      ("Bulk scheduled " ++ toString acc.newApps.length ++ " appointments.")
      "Bulk Entry Operation"
      { st1 with appointments := st1.appointments ++ acc.newApps }
  else st1

/-- One pasted row after `ImportExport.handleParse`: the two date cells
are `some day` when `parseDDMMYYYY` succeeded and `none` otherwise. -/
structure RawRow where
  subjectId : String
  name : String
  phone : String
  insertionDate : Option Int
  appointmentDate : Option Int
  remark : String
deriving DecidableEq

/-- `handleParse`'s `isValid` flag: non-empty subject id and a parseable
appointment date. -/
def rowIsValid (r : RawRow) : Bool :=
  decide (r.subjectId ≠ "") && r.appointmentDate.isSome

/-- The `BulkEntryRow` fields forwarded to `handleBulkAdd` for a valid
row (`getD` is only reached on rows `rowIsValid` has admitted). -/
def rowToItem (r : RawRow) : BulkItem :=
  { subjectId := r.subjectId, name := r.name, phone := r.phone,
    insertionDate :=
      match r.insertionDate with
      | some d => instantString (dayStart d)
      | none => "",
    appointmentDate := dayStart (r.appointmentDate.getD 0),
    remark := r.remark }

/-- `ImportExport.handleCommit`: filter the preview to its valid rows;
with none, report an error and import nothing; otherwise hand exactly
the valid rows to `handleBulkAdd`. The boolean reports whether an import
happened. -/
def handleCommit (now : Instant) (previewData : List RawRow) (st : AppState) :
    AppState × Bool :=
  let validRows := previewData.filter rowIsValid
  if validRows.length = 0 then (st, false)
  else (handleBulkAdd now (validRows.map rowToItem) st, true)

/-! ## Helper lemmas -/

theorem addChangeLog_appointments (now : Instant) (ctype : ChangeType)
    (sub : Subject) (details comment : String) (st : AppState) :
    (addChangeLog now ctype sub details comment st).appointments = st.appointments := rfl

theorem updateStatus_appointments (now : Instant) (id : String)
    (status : AppointmentStatus) (reason : Option String) (st : AppState) :
    (updateStatus now id status reason st).appointments =
      st.appointments.map (fun a =>
        if a.id == id then
          { a with status := status,
                   followUpReason := orReason reason a.followUpReason }
        else a) := by
  unfold updateStatus
  cases h : st.appointments.find? (fun a => a.id == id) with
  | none => rfl
  | some old =>
      by_cases h2 : old.status = status
      · simp [h2]
      · cases h3 : st.subjects.find? (fun s => s.id == old.subjectId) <;>
          simp [h2, h3, addChangeLog]

/-! ## C4 : bootstrap auto-miss pass -/

/-- C4: after the bootstrap auto-miss pass with reference time `now`, no
appointment with status `Scheduled` is dated strictly before `now`;
every appointment the pass transitioned is `Missed` with
`followUpReason = "Auto-detected: Past date"` and a system note
appended; appointments that were not `Scheduled` or not past are
returned unchanged. -/
theorem autoMissPass_correct (now : Instant) (apps : List Appointment) :
    autoMissPass now apps = apps.map (autoMissEntry now) ∧
    (∀ b ∈ autoMissPass now apps, b.status = .scheduled → isBefore b.date now = false) ∧
    (∀ app ∈ apps,
      ((isBefore app.date now = true ∧ app.status = .scheduled) →
        (autoMissEntry now app).status = .missed ∧
        (autoMissEntry now app).followUpReason = some "Auto-detected: Past date" ∧
        (autoMissEntry now app).notes =
          some ((app.notes.getD "") ++ " [System: Marked as Missed]")) ∧
      (¬ (isBefore app.date now = true ∧ app.status = .scheduled) →
        autoMissEntry now app = app)) := by
  refine ⟨rfl, ?_, ?_⟩
  · intro b hb hsched
    rcases List.mem_map.mp hb with ⟨a, _, rfl⟩
    by_cases h : isBefore a.date now = true ∧ a.status = .scheduled
    · simp [autoMissEntry, h] at hsched
    · rw [show autoMissEntry now a = a by simp [autoMissEntry, h]] at hsched ⊢
      rcases Bool.eq_false_or_eq_true (isBefore a.date now) with ht | hf
      · exact absurd ⟨ht, hsched⟩ h
      · exact hf
  · intro app _
    constructor
    · intro h
      simp [autoMissEntry, h]
    · intro h
      simp [autoMissEntry, h]

def c4App : Appointment :=
  { id := "a1", subjectId := "S1", date := ⟨9, 0⟩, status := .scheduled }

theorem autoMissPass_correct_witness :
    (autoMissEntry ⟨10, 0⟩ c4App).status = .missed ∧
    (autoMissEntry ⟨10, 0⟩ c4App).followUpReason = some "Auto-detected: Past date" := by
  have h := ((autoMissPass_correct ⟨10, 0⟩ [c4App]).2.2 c4App (by decide)).1 (by decide)
  exact ⟨h.1, h.2.1⟩

/-! ## C6 : Missed is rejected for future dates -/

/-- C6: marking an appointment `Missed` when its date is strictly in the
future is rejected with no mutation at all; when the date is at or
before `now` the transition is applied through `updateStatus`. -/
theorem handleMissedUpdate_futureRejected (now : Instant) (id reason : String)
    (st : AppState) (app : Appointment)
    (hfind : st.appointments.find? (fun a => a.id == id) = some app) :
    (isAfter app.date now = true → handleMissedUpdate now id reason st = (st, false)) ∧
    (isAfter app.date now = false →
      handleMissedUpdate now id reason st =
        (updateStatus now id .missed (some reason) st, true)) := by
  unfold handleMissedUpdate
  rw [hfind]
  constructor <;> intro h <;> simp [h]

def c6App : Appointment :=
  { id := "a1", subjectId := "S1", date := ⟨6, 0⟩, status := .scheduled }

def c6State : AppState :=
  { subjects := [], appointments := [c6App], changeLogs := [] }

theorem handleMissedUpdate_futureRejected_witness :
    handleMissedUpdate ⟨5, 0⟩ "a1" "r" c6State = (c6State, false) :=
  (handleMissedUpdate_futureRejected ⟨5, 0⟩ "a1" "r" c6State c6App (by decide)).1
    (by decide)

/-! ## C10 : empty or omitted reason preserves followUpReason -/

/-- C10: `updateStatus` with an omitted or empty reason rewrites only the
status and keeps every appointment's stored `followUpReason`; a
non-empty reason replaces it. -/
theorem updateStatus_reasonFrame (now : Instant) (id : String)
    (status : AppointmentStatus) (reason : Option String) (st : AppState)
    (hblank : reason = none ∨ reason = some "") :
    (updateStatus now id status reason st).appointments =
      st.appointments.map (fun a =>
        if a.id == id then { a with status := status } else a) ∧
    ∀ r : String, r ≠ "" →
      (updateStatus now id status (some r) st).appointments =
        st.appointments.map (fun a =>
          if a.id == id then
            { a with status := status, followUpReason := some r }
          else a) := by
  constructor
  · rw [updateStatus_appointments]
    have hfun : (fun (a : Appointment) =>
        if a.id == id then
          { a with status := status,
                   followUpReason := orReason reason a.followUpReason }
        else a) =
        (fun (a : Appointment) =>
          if a.id == id then { a with status := status } else a) := by
      funext a
      rcases hblank with rfl | rfl <;> simp [orReason]
    rw [hfun]
  · intro r hr
    rw [updateStatus_appointments]
    have hfun : (fun (a : Appointment) =>
        if a.id == id then
          { a with status := status,
                   followUpReason := orReason (some r) a.followUpReason }
        else a) =
        (fun (a : Appointment) =>
          if a.id == id then
            { a with status := status, followUpReason := some r }
          else a) := by
      funext a
      simp [orReason, hr]
    rw [hfun]

def c10State : AppState :=
  { subjects := [],
    appointments :=
      [{ id := "a1", subjectId := "S1", date := ⟨50, 0⟩, status := .missed,
         followUpReason := some "was sick" }],
    changeLogs := [] }

theorem updateStatus_reasonFrame_witness :
    (updateStatus ⟨60, 0⟩ "a1" .completed none c10State).appointments =
      c10State.appointments.map (fun a =>
        if a.id == "a1" then { a with status := .completed } else a) :=
  (updateStatus_reasonFrame ⟨60, 0⟩ "a1" .completed none c10State (Or.inl rfl)).1

/-! ## C5 : change-log coverage of mutations and status transitions -/

def c5State : AppState :=
  { subjects := [],
    appointments :=
      [{ id := "a1", subjectId := "S1", date := ⟨50, 0⟩, status := .scheduled }],
    changeLogs := [] }

/-- C5 counterexample: a status change applied through `updateStatus` on
an appointment whose subject is no longer in the directory really
changes the status, yet appends no change-log entry at all. -/
theorem updateStatus_silentWhenSubjectMissing :
    (updateStatus ⟨60, 0⟩ "a1" .missed (some "sick") c5State).appointments.map
        (fun a => a.status) = [.missed] ∧
    (updateStatus ⟨60, 0⟩ "a1" .missed (some "sick") c5State).changeLogs = [] := by
  decide

/-- C5 amended: every applied subject mutation appends exactly one entry
with the expected fields, and a status change through `updateStatus`
that actually changes the status appends exactly one entry provided the
appointment's subject is still present in the directory. -/
theorem changeLog_exactlyOne (now : Instant) (st : AppState) :
    (∀ subjectData comment,
      st.subjects.any (fun s => s.id == subjectData.id) = false →
      (handleSubjectChange now .create subjectData comment st).changeLogs =
        st.changeLogs ++
          [{ id := logId st.changeLogs.length, timestamp := now,
             subjectId := subjectData.id, subjectName := subjectData.name,
             changeType := .create, details := "Created new subject entry",
             comment := comment }]) ∧
    (∀ subjectData comment,
      st.subjects.any (fun s => s.id == subjectData.id) = true →
      (handleSubjectChange now .update subjectData comment st).changeLogs =
        st.changeLogs ++
          [{ id := logId st.changeLogs.length, timestamp := now,
             subjectId := subjectData.id, subjectName := subjectData.name,
             changeType := .update, details := "Updated subject details",
             comment := comment }]) ∧
    (∀ subjectData comment,
      (handleSubjectChange now .delete subjectData comment st).changeLogs =
        st.changeLogs ++
          [{ id := logId st.changeLogs.length, timestamp := now,
             subjectId := subjectData.id, subjectName := subjectData.name,
             changeType := .delete, details := "Exited Subject from study",
             comment := comment }]) ∧
    (∀ id status reason old sub,
      st.appointments.find? (fun a => a.id == id) = some old →
      old.status ≠ status →
      st.subjects.find? (fun s => s.id == old.subjectId) = some sub →
      (updateStatus now id status reason st).changeLogs =
        st.changeLogs ++
          [{ id := logId st.changeLogs.length, timestamp := now,
             subjectId := sub.id, subjectName := sub.name, changeType := .update,
             details := "Status: " ++ statusLabel old.status ++ " -> " ++
               statusLabel status,
             comment := "Manual change. " ++ reason.getD "" }]) := by
  refine ⟨?_, ?_, ?_, ?_⟩
  · intro subjectData comment h
    simp [handleSubjectChange, h, addChangeLog]
  · intro subjectData comment h
    simp [handleSubjectChange, h, addChangeLog]
  · intro subjectData comment
    simp [handleSubjectChange, addChangeLog]
  · intro id status reason old sub hfind hne hsub
    unfold updateStatus
    rw [hfind]
    simp [hne, hsub, addChangeLog]

def c5Sub : Subject := { id := "S1", name := "Alice" }

def c5StateB : AppState :=
  { subjects := [c5Sub],
    appointments :=
      [{ id := "a1", subjectId := "S1", date := ⟨50, 0⟩, status := .scheduled }],
    changeLogs := [] }

theorem changeLog_exactlyOne_witness :
    (updateStatus ⟨60, 0⟩ "a1" .missed (some "sick") c5StateB).changeLogs =
      [{ id := logId 0, timestamp := ⟨60, 0⟩, subjectId := "S1",
         subjectName := "Alice", changeType := .update,
         details := "Status: Scheduled -> Missed",
         comment := "Manual change. sick" }] := by
  have h := (changeLog_exactlyOne ⟨60, 0⟩ c5StateB).2.2.2 "a1" .missed (some "sick")
    { id := "a1", subjectId := "S1", date := ⟨50, 0⟩, status := .scheduled }
    c5Sub (by decide) (by decide) (by decide)
  rw [h]
  decide

/-! ## C7 : reschedule boundary -/

def c7App : Appointment :=
  { id := "a1", subjectId := "S1", date := ⟨3, 500⟩, status := .missed }

def c7State : AppState :=
  { subjects := [], appointments := [c7App], changeLogs := [] }

/-- C7 counterexample: rescheduling to exactly the start of the current
day (today at 00:00, while "now" is 10:00) succeeds even though the new
date/time is not strictly after the start of the current day, so the
claimed "succeeds only when strictly after" fails at this input. -/
theorem reschedule_startOfDayBoundary :
    (handleRescheduleSubmit ⟨5, 600⟩ c7App 5 0 c7State).2 = true ∧
    isAfter (⟨5, 0⟩ : Instant) (startOfDay ⟨5, 600⟩) = false := by
  decide

/-- C7 amended: reschedule succeeds exactly when the new date/time is at
or after the start of the current day; a new date/time strictly before
it is rejected with no mutation; on success the appointment keeps its
id, resets to `Scheduled` at the new instant, and a note recording the
original date is appended. -/
theorem reschedule_amended (now : Instant) (app : Appointment)
    (newDay newTime : Int) (st : AppState) :
    (isBefore ⟨newDay, newTime⟩ (startOfDay now) = true →
      handleRescheduleSubmit now app newDay newTime st = (st, false)) ∧
    (isBefore ⟨newDay, newTime⟩ (startOfDay now) = false →
      handleRescheduleSubmit now app newDay newTime st =
        (updateAppointment
          { app with
              date := ⟨newDay, newTime⟩,
              status := .scheduled,
              notes := some ((app.notes.getD "") ++
                " [System: Rescheduled from " ++ toString app.date.day ++ "]") } st,
         true)) := by
  constructor <;> intro h <;> simp [handleRescheduleSubmit, h]

theorem reschedule_amended_witness :
    handleRescheduleSubmit ⟨5, 600⟩ c7App 2 0 c7State = (c7State, false) :=
  (reschedule_amended ⟨5, 600⟩ c7App 2 0 c7State).1 (by decide)

/-! ## C8 : exit workflow -/

def c8Sub : Subject := { id := "S002", name := "Bob Smith (SJH)" }

def c8State : AppState :=
  { subjects := [c8Sub],
    appointments :=
      [{ id := "a9", subjectId := "S002", date := ⟨10, 0⟩, status := .completed }],
    changeLogs := [] }

/-- C8 counterexample: exiting with reason Other and the non-empty but
whitespace-only text " " is rejected, so "with non-empty text it
succeeds" fails at this input — the handler requires the trimmed text to
be non-empty. -/
theorem exitOther_whitespaceRejected :
    (" " ≠ "") ∧
    handleSubmitDelete ⟨20, 0⟩ c8Sub .other " " 20 false c8State = (c8State, false) := by
  decide

/-- C8 amended: with reason Other the freeform text must be non-blank
after trimming: blank text is rejected with no mutation; with non-blank
text (or any other reason from the closed set) the exit succeeds,
removing the subject from the directory and appending exactly one
Delete-type entry whose comment embeds the structured reason, the date
and the approximation marker, while the subject's appointments are left
untouched. -/
theorem exitWorkflow_amended (now : Instant) (sub : Subject) (reason : ExitReason)
    (text : String) (d : Int) (approx : Bool) (st : AppState) :
    (reason = .other ∧ trimString text = "" →
      handleSubmitDelete now sub reason text d approx st = (st, false)) ∧
    ((reason = .other → trimString text ≠ "") →
      (handleSubmitDelete now sub reason text d approx st).2 = true ∧
      (handleSubmitDelete now sub reason text d approx st).1.subjects =
        st.subjects.filter (fun s => s.id != sub.id) ∧
      (handleSubmitDelete now sub reason text d approx st).1.appointments =
        st.appointments ∧
      (handleSubmitDelete now sub reason text d approx st).1.changeLogs =
        st.changeLogs ++
          [{ id := logId st.changeLogs.length, timestamp := now,
             subjectId := sub.id, subjectName := sub.name, changeType := .delete,
             details := "Exited Subject from study",
             comment := "Exit Study: " ++
               (if reason = .other then "OTHER: " ++ text
                else exitReasonLabel reason) ++
               " on " ++ toString d ++
               (if approx then " (approx)" else "") }]) := by
  constructor
  · intro h
    simp [handleSubmitDelete, h.1, h.2]
  · intro h
    have hcond : ¬ (reason = .other ∧ trimString text = "") := by
      rintro ⟨ho, ht⟩
      exact h ho ht
    refine ⟨?_, ?_, ?_, ?_⟩ <;>
      simp [handleSubmitDelete, hcond, handleSubjectChange, addChangeLog]

theorem exitWorkflow_amended_witness :
    (handleSubmitDelete ⟨20, 0⟩ c8Sub .other "moved away" 20 true c8State).1.subjects = [] ∧
    (handleSubmitDelete ⟨20, 0⟩ c8Sub .other "moved away" 20 true c8State).1.appointments =
      c8State.appointments := by
  have h := (exitWorkflow_amended ⟨20, 0⟩ c8Sub .other "moved away" 20 true c8State).2
    (by intro _; decide)
  refine ⟨?_, h.2.2.1⟩
  rw [h.2.1]
  decide

/-! ## C2 : the 5-day correction window -/

/-- C2: correcting a Missed appointment is rejected with no mutation for
any attendance date outside `now − 5 days ≤ attendanceDate ≤ now`
(blocked by the date input's min/max constraints, the lower bound also
by the handler's own check); the boundary `now − 5 days` succeeds with
an otherwise valid follow-up choice, and `now − 6 days` is rejected. -/
theorem completion_correctionWindow (now : Instant) (app : Appointment)
    (inp : CompletionInput) (newApptId : String) (st : AppState)
    (hm : app.status = .missed) :
    ((inp.completionDate < now.day - 5 ∨ now.day < inp.completionDate) →
      completeAppointment now app inp newApptId st = (st, .blockedByForm)) ∧
    (inp.completionDate = now.day - 6 →
      completeAppointment now app inp newApptId st = (st, .blockedByForm)) ∧
    (inp.completionDate = now.day - 5 →
      inp.postVisitAction = some .nextAppt →
      ∀ d, inp.nextApptDate = some d → now.day ≤ d →
        (completeAppointment now app inp newApptId st).2 = .completedVisit) := by
  have hblocked : (inp.completionDate < now.day - 5 ∨ now.day < inp.completionDate) →
      completeAppointment now app inp newApptId st = (st, .blockedByForm) := by
    intro hout
    have hv : completionFormValid now app inp = false := by
      rcases hout with h | h
      · have h2 : decide (now.day - 5 ≤ inp.completionDate) = false := by
          simp
          omega
        rw [completionFormValid, if_pos hm, h2]
        simp
      · have h1 : decide (inp.completionDate ≤ now.day) = false := by
          simp
          omega
        rw [completionFormValid, h1]
        simp
    simp [completeAppointment, hv]
  refine ⟨hblocked, ?_, ?_⟩
  · intro h6
    exact hblocked (Or.inl (by omega))
  · intro hc ha d hd hdle
    have hv : completionFormValid now app inp = true := by
      rw [completionFormValid]
      have h1 : decide (inp.completionDate ≤ now.day) = true := by
        simp
        omega
      have h2 : decide (now.day - 5 ≤ inp.completionDate) = true := by
        simp
        omega
      simp [hm, h1, h2, ha, hd, hdle]
      all_goals omega
    have hb : isBefore (dayStart inp.completionDate) (startOfDay (subDays now 5)) = false := by
      simp [isBefore, dayStart, startOfDay, subDays, hc]
    simp [completeAppointment, hv, handleCompletionSubmit, hb, ha, hd]

def c2App : Appointment :=
  { id := "a1", subjectId := "S1", date := ⟨90, 300⟩, status := .missed }

def c2State : AppState :=
  { subjects := [], appointments := [c2App], changeLogs := [] }

def c2Inp (cd : Int) : CompletionInput :=
  { completionDate := cd, isApproximate := false, postVisitAction := some .nextAppt,
    nextApptDate := some 101, nextApptTime := 600, nextApptNotes := "",
    exitReason := .completedStudy, exitOtherReason := "", exitDate := 100 }

theorem completion_correctionWindow_witness :
    (completeAppointment ⟨100, 700⟩ c2App (c2Inp 95) "n1" c2State).2 = .completedVisit ∧
    completeAppointment ⟨100, 700⟩ c2App (c2Inp 94) "n1" c2State =
      (c2State, .blockedByForm) := by
  constructor
  · exact (completion_correctionWindow ⟨100, 700⟩ c2App (c2Inp 95) "n1" c2State
      (by decide)).2.2 (by decide) (by decide) 101 (by decide) (by decide)
  · exact (completion_correctionWindow ⟨100, 700⟩ c2App (c2Inp 94) "n1" c2State
      (by decide)).2.1 (by decide)

/-! ## C1 : completion side effects -/

def c1App : Appointment :=
  { id := "a1", subjectId := "GONE", date := ⟨100, 600⟩, status := .scheduled }

def c1State : AppState :=
  { subjects := [], appointments := [c1App], changeLogs := [] }

def c1Inp : CompletionInput :=
  { completionDate := 100, isApproximate := false, postVisitAction := some .exitStudy,
    nextApptDate := none, nextApptTime := 600, nextApptNotes := "",
    exitReason := .completedStudy, exitOtherReason := "", exitDate := 100 }

/-- C1 counterexample: completing an appointment whose subject has
already left the directory, with follow-up choice Exit, reports success
and applies the status change, yet produces neither a new appointment
nor a subject exit — zero follow-up side effects, not exactly one. -/
theorem completion_zeroFollowUp :
    (completeAppointment ⟨100, 700⟩ c1App c1Inp "n1" c1State).2 = .completedVisit ∧
    (completeAppointment ⟨100, 700⟩ c1App c1Inp "n1" c1State).1.appointments.map
        (fun a => a.status) = [.completed] ∧
    (completeAppointment ⟨100, 700⟩ c1App c1Inp "n1" c1State).1.appointments.length = 1 ∧
    (completeAppointment ⟨100, 700⟩ c1App c1Inp "n1" c1State).1.subjects =
      c1State.subjects := by
  decide

/-- C1 amended: under a form-valid submission, supplying neither
follow-up choice blocks the entire completion with no mutation; with
Next-Appointment the status change is applied and exactly one new
Scheduled appointment is added; with Exit and the subject still in the
directory the status change is applied and, for a non-blank reason, the
subject exit happens — but a blank Other-reason text, or a subject
already missing from the directory, leaves the status change applied
with no follow-up side effect. -/
theorem completion_amended (now : Instant) (app : Appointment)
    (inp : CompletionInput) (newApptId : String) (st : AppState)
    (hv : completionFormValid now app inp = true) :
    (inp.postVisitAction = none →
      completeAppointment now app inp newApptId st = (st, .rejectedNoAction)) ∧
    (∀ d, inp.postVisitAction = some .nextAppt → inp.nextApptDate = some d →
      completeAppointment now app inp newApptId st =
        (addAppointment (nextApptRecord app inp newApptId d)
          (updateAppointment (completedVersion app inp) st), .completedVisit)) ∧
    (inp.postVisitAction = some .exitStudy →
      (∀ sub, st.subjects.find? (fun s => s.id == app.subjectId) = some sub →
        ((inp.exitReason = .other ∧ trimString inp.exitOtherReason = "") →
          completeAppointment now app inp newApptId st =
            (updateAppointment (completedVersion app inp) st, .rejectedOtherReason)) ∧
        ((inp.exitReason = .other → trimString inp.exitOtherReason ≠ "") →
          completeAppointment now app inp newApptId st =
            (handleSubjectChange now .delete sub (exitStudyComment inp)
              (updateAppointment (completedVersion app inp) st), .completedVisit))) ∧
      (st.subjects.find? (fun s => s.id == app.subjectId) = none →
        completeAppointment now app inp newApptId st =
          (updateAppointment (completedVersion app inp) st, .completedVisit))) := by
  have hwin : ¬ (app.status = .missed ∧
      isBefore (dayStart inp.completionDate) (startOfDay (subDays now 5)) = true) := by
    rintro ⟨hm, hb⟩
    rw [completionFormValid, if_pos hm] at hv
    simp only [Bool.and_eq_true, decide_eq_true_eq] at hv
    simp only [isBefore, dayStart, startOfDay, subDays, decide_eq_true_eq] at hb
    rcases hb with hb | hb
    · omega
    · omega
  refine ⟨?_, ?_, ?_⟩
  · intro hnone
    simp [completeAppointment, hv, handleCompletionSubmit, hwin, hnone]
  · intro d ha hd
    simp [completeAppointment, hv, handleCompletionSubmit, hwin, ha, hd]
  · intro ha
    constructor
    · intro sub hsub
      constructor
      · intro hblank
        simp [completeAppointment, hv, handleCompletionSubmit, hwin, ha, hsub, hblank]
      · intro hnb
        have hcond : ¬ (inp.exitReason = .other ∧ trimString inp.exitOtherReason = "") := by
          rintro ⟨ho, ht⟩
          exact hnb ho ht
        simp [completeAppointment, hv, handleCompletionSubmit, hwin, ha, hsub, hcond]
    · intro hsub
      simp [completeAppointment, hv, handleCompletionSubmit, hwin, ha, hsub]

def c1AppB : Appointment :=
  { id := "a2", subjectId := "S9", date := ⟨100, 540⟩, status := .scheduled }

def c1StateB : AppState :=
  { subjects := [{ id := "S9", name := "Iris" }], appointments := [c1AppB],
    changeLogs := [] }

def c1InpB : CompletionInput :=
  { completionDate := 100, isApproximate := false, postVisitAction := none,
    nextApptDate := none, nextApptTime := 600, nextApptNotes := "",
    exitReason := .completedStudy, exitOtherReason := "", exitDate := 100 }

theorem completion_amended_witness :
    completeAppointment ⟨100, 700⟩ c1AppB c1InpB "n2" c1StateB =
      (c1StateB, .rejectedNoAction) :=
  (completion_amended ⟨100, 700⟩ c1AppB c1InpB "n2" c1StateB (by decide)).1 rfl

/-! ## C3 : bulk-import dedup -/

def c3Item1 : BulkItem :=
  { subjectId := "X", name := "N1", phone := "", insertionDate := "",
    appointmentDate := ⟨50, 0⟩, remark := "" }

def c3Item2 : BulkItem :=
  { subjectId := "X", name := "N2", phone := "1234", insertionDate := "",
    appointmentDate := ⟨51, 0⟩, remark := "" }

def c3State : AppState := { subjects := [], appointments := [], changeLogs := [] }

/-- C3 counterexample: two rows sharing a subjectId new to the directory
create exactly one Subject, but the second row's non-empty name ("N2")
and phone do not override the first row's staged values — the staged
subject keeps name "N1" and the empty phone. -/
theorem bulkAdd_secondRowIgnored :
    (handleBulkAdd ⟨40, 0⟩ [c3Item1, c3Item2] c3State).subjects.map
        (fun s => (s.name, s.phone)) = [("N1", some "")] ∧
    ("N1" : String) ≠ "N2" := by
  decide

/-- C3 amended: an `importBulk` batch of two rows sharing a subjectId
that is new to the directory creates exactly one Subject, built entirely
from the first row; the second row's subject fields are ignored. -/
theorem bulkAdd_dedup_amended (now : Instant) (r1 r2 : BulkItem) (st : AppState)
    (hsame : r2.subjectId = r1.subjectId)
    (hfresh : st.subjects.find? (fun s => s.id == r1.subjectId) = none) :
    (handleBulkAdd now [r1, r2] st).subjects = st.subjects ++ [mkBulkSubject now r1] := by
  have hstep1 : bulkStep now st.subjects ⟨[], [], []⟩ r1 =
      ⟨[mkBulkAppt now r1 (bulkApptId 0)], [mkBulkSubject now r1], []⟩ := by
    simp [bulkStep, hfresh]
  have hstep2 : bulkStep now st.subjects
      ⟨[mkBulkAppt now r1 (bulkApptId 0)], [mkBulkSubject now r1], []⟩ r2 =
      ⟨[mkBulkAppt now r1 (bulkApptId 0), mkBulkAppt now r2 (bulkApptId 1)],
       [mkBulkSubject now r1], []⟩ := by
    simp [bulkStep, hsame, hfresh, mkBulkSubject, List.find?]
  unfold handleBulkAdd
  rw [List.foldl_cons, List.foldl_cons, List.foldl_nil, hstep1, hstep2]
  simp [applyUpdates, addChangeLog]

theorem bulkAdd_dedup_amended_witness :
    (handleBulkAdd ⟨40, 0⟩ [c3Item1, c3Item2] c3State).subjects =
      [mkBulkSubject ⟨40, 0⟩ c3Item1] := by
  have h := bulkAdd_dedup_amended ⟨40, 0⟩ c3Item1 c3Item2 c3State (by decide) (by decide)
  simpa using h

/-! ## C9 : one appointment per valid bulk row -/

/-- The status rule every bulk-created appointment obeys: `Missed` with
the fixed follow-up reason when dated strictly before "now", `Scheduled`
with no follow-up reason otherwise. -/
def bulkApptOk (now : Instant) (a : Appointment) : Prop :=
  (isBefore a.date now = true →
    a.status = .missed ∧ a.followUpReason = some "Past date on bulk entry") ∧
  (isBefore a.date now = false → a.status = .scheduled ∧ a.followUpReason = none)

theorem mkBulkAppt_ok (now : Instant) (item : BulkItem) (apptId : String) :
    bulkApptOk now (mkBulkAppt now item apptId) := by
  unfold bulkApptOk mkBulkAppt
  cases h : isBefore item.appointmentDate now <;> simp [h]

theorem bulkStep_newApps (now : Instant) (subjects : List Subject)
    (acc : BulkAcc) (item : BulkItem) :
    (bulkStep now subjects acc item).newApps =
      acc.newApps ++ [mkBulkAppt now item (bulkApptId acc.newApps.length)] := by
  unfold bulkStep
  by_cases h : (subjects.find? (fun s => s.id == item.subjectId)).isNone ∧
      ((acc.newSubs.find? (fun s => s.id == item.subjectId))).isNone
  · simp [h]
  · simp only [if_neg h]
    cases hfind : subjects.find? (fun s => s.id == item.subjectId) with
    | none => simp
    | some existing =>
        by_cases h2 : mergeBulkSubject item existing ≠ existing <;> simp [h2]

theorem bulkFold_newApps_length (now : Instant) (subjects : List Subject) :
    ∀ (items : List BulkItem) (acc : BulkAcc),
      ((items.foldl (bulkStep now subjects) acc).newApps).length =
        acc.newApps.length + items.length := by
  intro items
  induction items with
  | nil => intro acc; simp
  | cons item rest ih =>
      intro acc
      rw [List.foldl_cons, ih, bulkStep_newApps]
      simp
      omega

theorem bulkFold_newApps_ok (now : Instant) (subjects : List Subject) :
    ∀ (items : List BulkItem) (acc : BulkAcc),
      (∀ a ∈ acc.newApps, bulkApptOk now a) →
      ∀ a ∈ (items.foldl (bulkStep now subjects) acc).newApps, bulkApptOk now a := by
  intro items
  induction items with
  | nil => intro acc h; simpa using h
  | cons item rest ih =>
      intro acc h
      rw [List.foldl_cons]
      apply ih
      intro a ha
      rw [bulkStep_newApps] at ha
      rcases List.mem_append.mp ha with h1 | h2
      · exact h a h1
      · rw [List.mem_singleton.mp h2]
        exact mkBulkAppt_ok now item (bulkApptId acc.newApps.length)

theorem handleBulkAdd_appointments (now : Instant) (items : List BulkItem)
    (st : AppState) :
    (handleBulkAdd now items st).appointments =
      st.appointments ++ (items.foldl (bulkStep now st.subjects) ⟨[], [], []⟩).newApps := by
  unfold handleBulkAdd
  generalize items.foldl (bulkStep now st.subjects) ⟨[], [], []⟩ = acc
  by_cases h1 : acc.newSubs ≠ [] ∨ acc.updatedSubs ≠ [] <;>
    by_cases h2 : acc.newApps ≠ [] <;>
      simp [h1, h2, addChangeLog] <;>
        simp at h2 <;> simp [h2]

/-- C9: `handleCommit` appends exactly one new appointment per valid
preview row (rows with an empty subject id or an unparseable appointment
date are excluded and contribute nothing), never merging with existing
appointments, and each new appointment obeys the Missed/Scheduled status
rule against "now". -/
theorem bulkCommit_appointments (now : Instant) (rows : List RawRow) (st : AppState) :
    ∃ newApps : List Appointment,
      (handleCommit now rows st).1.appointments = st.appointments ++ newApps ∧
      newApps.length = (rows.filter rowIsValid).length ∧
      ∀ a ∈ newApps, bulkApptOk now a := by
  unfold handleCommit
  by_cases h : ((rows.filter rowIsValid).length = 0)
  · exact ⟨[], by simp [h], by simp [h], by simp⟩
  · refine ⟨(((rows.filter rowIsValid).map rowToItem).foldl
      (bulkStep now st.subjects) ⟨[], [], []⟩).newApps, ?_, ?_, ?_⟩
    · simp [h, handleBulkAdd_appointments]
    · rw [bulkFold_newApps_length]
      simp
    · exact bulkFold_newApps_ok now st.subjects _ _ (by simp)

def c9Good1 : RawRow :=
  { subjectId := "A", name := "n", phone := "p", insertionDate := none,
    appointmentDate := some 50, remark := "r" }

def c9Bad : RawRow :=
  { subjectId := "B", name := "n", phone := "p", insertionDate := none,
    appointmentDate := none, remark := "r" }

def c9Good2 : RawRow :=
  { subjectId := "C", name := "n", phone := "p", insertionDate := none,
    appointmentDate := some 30, remark := "r" }

def c9State : AppState := { subjects := [], appointments := [], changeLogs := [] }

theorem bulkCommit_appointments_witness :
    (handleCommit ⟨40, 0⟩ [c9Good1, c9Bad, c9Good2] c9State).1.appointments.length = 2 := by
  obtain ⟨newApps, h1, h2, _⟩ :=
    bulkCommit_appointments ⟨40, 0⟩ [c9Good1, c9Bad, c9Good2] c9State
  rw [h1, List.length_append, h2]
  decide

end ProTrack
